import Mathlib

/-!
Verification of the medical-ai backend's model-adapter and DICOM-utility layer.

This file gives a shallow embedding, in Lean 4, of the computational content of
`backend/services/model_service.py` and `backend/utils/dicom_utils.py`:

* numeric arrays and probabilities are modelled over `ℚ` (an exact idealisation
  of the `float32`/`float64` arithmetic in the source; none of the verified
  claims depends on rounding of the transcendental parts);
* `exp` (the only transcendental used, inside `softmax`/`sigmoid`) is a
  parameter of the embedded functions, constrained where needed by the
  properties the proofs use (positivity); a concrete computable stand-in
  `expQ` is provided so that theorems can be exercised on closed inputs;
* Python exceptions are modelled with `Except String`: a `try/except` block in
  the source becomes a `match` on the `Except` value of the embedded body, and
  an exception that the source lets escape becomes an `Except.error` result;
* a framework model (`tf.keras` graph or `torch` module) is an abstract
  function from a batch to its output tensor, since the adapter code under
  verification treats it as a black box.
-/

namespace MedicalAI

/-! ## Array primitives (numpy / torch counterparts) -/

/-- Index of the first occurrence of the maximum, accumulator form.
`np.argmax` and `torch.argmax` both return the first maximal index. -/
def argmaxAux : List ℚ → Nat → Nat → ℚ → Nat
  | [], _, best, _ => best
  | a :: l, i, best, bv => if bv < a then argmaxAux l (i + 1) i a else argmaxAux l (i + 1) best bv

/-- `np.argmax` / `torch.argmax` on a vector (first maximal index; 0 on empty). -/
def argmax : List ℚ → Nat
  | [] => 0
  | a :: l => argmaxAux l 1 0 a

theorem argmaxAux_lt (l : List ℚ) (i best : Nat) (bv : ℚ) (hb : best < i)
    (hi : 0 < i) : argmaxAux l i best bv < i + l.length := by
  induction l generalizing i best bv with
  | nil =>
    simp only [argmaxAux, List.length_nil]
    omega
  | cons a l ih =>
    simp only [argmaxAux, List.length_cons]
    by_cases h : bv < a
    · simp only [h, if_true]
      have := ih (i + 1) i a (Nat.lt_succ_self i) (Nat.lt_succ_of_lt hi)
      omega
    · simp only [h, if_false]
      have := ih (i + 1) best bv (Nat.lt_succ_of_lt hb) (Nat.lt_succ_of_lt hi)
      omega

theorem argmax_lt_length (l : List ℚ) (h : l ≠ []) : argmax l < l.length := by
  match l with
  | a :: t =>
    have := argmaxAux_lt t 1 0 a Nat.zero_lt_one Nat.zero_lt_one
    simp only [argmax, List.length_cons]
    omega

/-- Descending insertion of one element (used to model `torch.sort(descending=True)`). -/
def insertDesc (a : ℚ) : List ℚ → List ℚ
  | [] => [a]
  | b :: l => if b ≤ a then a :: b :: l else b :: insertDesc a l

/-- Descending sort of a vector, the result of `torch.sort(probabilities, descending=True)`. -/
def sortDesc : List ℚ → List ℚ
  | [] => []
  | a :: l => insertDesc a (sortDesc l)

theorem length_insertDesc (a : ℚ) (l : List ℚ) :
    (insertDesc a l).length = l.length + 1 := by
  induction l with
  | nil => rfl
  | cons b l ih =>
    simp only [insertDesc]
    by_cases h : b ≤ a <;> simp [h, ih]

theorem length_sortDesc (l : List ℚ) : (sortDesc l).length = l.length := by
  induction l with
  | nil => rfl
  | cons a l ih => simp [sortDesc, length_insertDesc, ih]

theorem perm_insertDesc (a : ℚ) (l : List ℚ) : (insertDesc a l).Perm (a :: l) := by
  induction l with
  | nil => exact List.Perm.refl _
  | cons b l ih =>
    simp only [insertDesc]
    by_cases h : b ≤ a
    · simp [h]
    · simp only [h, if_false]
      exact ((ih.cons b).trans (List.Perm.swap a b l))

theorem perm_sortDesc (l : List ℚ) : (sortDesc l).Perm l := by
  induction l with
  | nil => exact List.Perm.refl _
  | cons a l ih => exact (perm_insertDesc a (sortDesc l)).trans (ih.cons a)

theorem sorted_insertDesc (a : ℚ) (l : List ℚ)
    (h : List.Sorted (fun x y => y ≤ x) l) :
    List.Sorted (fun x y => y ≤ x) (insertDesc a l) := by
  induction l with
  | nil => simp [insertDesc]
  | cons b l ih =>
    simp only [insertDesc]
    by_cases hba : b ≤ a
    · rw [if_pos hba]
      refine List.sorted_cons.mpr ⟨?_, h⟩
      intro x hx
      rcases List.mem_cons.mp hx with rfl | hx
      · exact hba
      · exact le_trans ((List.sorted_cons.mp h).1 x hx) hba
    · rw [if_neg hba]
      have hl := (List.sorted_cons.mp h).2
      refine List.sorted_cons.mpr ⟨?_, ih hl⟩
      intro x hx
      have hx' := (perm_insertDesc a l).mem_iff.mp hx
      rcases List.mem_cons.mp hx' with rfl | hx''
      · exact le_of_not_le hba
      · exact (List.sorted_cons.mp h).1 x hx''

theorem sorted_sortDesc (l : List ℚ) :
    List.Sorted (fun x y => y ≤ x) (sortDesc l) := by
  induction l with
  | nil => simp [sortDesc]
  | cons a l ih => exact sorted_insertDesc a _ ih

/-- The head of the descending sort bounds every element of the list. -/
theorem le_head_sortDesc {l : List ℚ} {x : ℚ} (hx : x ∈ l) :
    x ≤ (sortDesc l).getD 0 0 := by
  have hmem : x ∈ sortDesc l := (perm_sortDesc l).mem_iff.mpr hx
  match hsd : sortDesc l with
  | [] => simp [hsd] at hmem
  | a :: t =>
    rw [hsd] at hmem
    have hs := sorted_sortDesc l
    rw [hsd] at hs
    rcases List.mem_cons.mp hmem with rfl | hmt
    · simp
    · simpa using (List.sorted_cons.mp hs).1 x hmt

/-! ## Softmax / sigmoid, parameterised by the exponential -/

/-- `softmax` over a vector, parameterised by the exponential function used. -/
def softmax (e : ℚ → ℚ) (l : List ℚ) : List ℚ :=
  let es := l.map e
  es.map (· / es.sum)

/-- `torch.sigmoid` on one logit, parameterised by the exponential function. -/
def sigmoid (e : ℚ → ℚ) (x : ℚ) : ℚ := 1 / (1 + e (-x))

theorem length_softmax (e : ℚ → ℚ) (l : List ℚ) :
    (softmax e l).length = l.length := by
  simp [softmax]

/-- `min` on `ℚ`, written with `if` so that the kernel can evaluate it on
closed rational literals (the lattice `min` of `ℚ` does not reduce). -/
def qmin (a b : ℚ) : ℚ := if a ≤ b then a else b

/-- `max` on `ℚ`, written with `if` for kernel evaluation. -/
def qmax (a b : ℚ) : ℚ := if a ≤ b then b else a

/-- Absolute value on `ℚ`, written with `if` for kernel evaluation. -/
def qabs (a : ℚ) : ℚ := if a < 0 then -a else a

theorem qabs_eq_abs (a : ℚ) : qabs a = |a| := by
  unfold qabs
  rcases lt_or_ge a 0 with h | h
  · rw [if_pos h, abs_of_neg h]
  · rw [if_neg (not_lt.mpr h), abs_of_nonneg h]

/-- A concrete, computable, everywhere-positive stand-in for `exp`, used to
evaluate the parameterised theorems on closed inputs. -/
def expQ (q : ℚ) : ℚ := q / (1 + qabs q) + 1

theorem expQ_pos (q : ℚ) : 0 < expQ q := by
  unfold expQ
  rw [qabs_eq_abs]
  have h1 : (0 : ℚ) < 1 + |q| := by positivity
  rcases le_or_lt 0 q with hq | hq
  · have : 0 ≤ q / (1 + |q|) := div_nonneg hq h1.le
    linarith
  · have habs : |q| = -q := abs_of_neg hq
    have hlt : -q < 1 + |q| := by rw [habs]; linarith
    have : -1 < q / (1 + |q|) := by
      rw [neg_lt, ← neg_div]
      exact (div_lt_one h1).mpr hlt
    linarith

/-! ## Batches and channel reconciliation (`DROCTModel.predict`, lines 63-73) -/

/-- A preprocessed batch, represented by its list of channel planes; each plane
is the flattened `N×H×W` pixel content of one channel.  `planes.length` is the
channel count (`x.shape[-1]` for NHWC numpy input). -/
structure Batch where
  planes : List (List ℚ)
deriving DecidableEq, Repr

/-- Pixelwise mean of three channel planes: `x.mean(axis=-1, keepdims=True)`
for a 3-channel batch. -/
def mean3 (p1 p2 p3 : List ℚ) : List ℚ :=
  (List.zipWith (· + ·) p1 (List.zipWith (· + ·) p2 p3)).map (· / 3)

/-- The channel-reconciliation step of `DROCTModel.predict`:
`if x.shape[-1] == 1 and expected_c == 3: np.repeat(x, 3, axis=-1)`,
`elif x.shape[-1] == 3 and expected_c == 1: x.mean(axis=-1, keepdims=True)`.
`expected` is `self.model.inputs[0].shape[-1]` (`none` when the Keras graph
declares no static channel count, in which case the source substitutes the
batch's own channel count and neither branch fires). -/
def reconcileChannels (expected : Option Nat) (b : Batch) : Batch :=
  let expC := expected.getD b.planes.length
  match b.planes with
  | [p] => if expC = 3 then ⟨[p, p, p]⟩ else b
  | [p1, p2, p3] => if expC = 1 then ⟨[mean3 p1 p2 p3]⟩ else b
  | _ => b

/-! ## DR OCT adapter (`DROCTModel`, model_service.py lines 39-97) -/

/-- A loaded Keras graph as the adapter sees it: its declared input channel
count and its forward function.  `run` returns the squeezed output vector `y`
(a scalar sigmoid output and a `(1,)` output are both represented as a
one-element list, since lines 80-85 of the source treat them identically). -/
structure KerasModel where
  expectedChannels : Option Nat
  run : Batch → List ℚ

/-- Classification result dict: `prediction`, `confidence`, `probabilities`
(positionally aligned with `classes`). -/
structure ClsResult where
  prediction : String
  confidence : ℚ
  probabilities : List ℚ
  classes : List String
deriving DecidableEq, Repr

def droctClasses : List String := ["DR", "Normal"]

/-- `DROCTModel.predict`.  The source wraps nothing in `try/except`, so any
internal failure — in particular the explicit
`raise ValueError(f"Unexpected model output shape: ...")` on line 89 —
propagates to the caller; this is modelled by an `Except.error` result. -/
def droctPredict (e : ℚ → ℚ) (m : KerasModel) (b : Batch) : Except String ClsResult :=
  let x := reconcileChannels m.expectedChannels b
  let y := m.run x
  -- map outputs to probabilities for ['DR', 'Normal']
  let probsE : Except String (List ℚ) :=
    match y with
    | [p] => Except.ok [1 - p, p]          -- scalar / (1,) sigmoid: p is P(Normal)
    | [u, v] => Except.ok (softmax e [u, v])
    | _ => Except.error "ValueError: Unexpected model output shape"
  probsE.bind fun probs =>
    let idx := argmax probs
    match droctClasses.get? idx with
    | some c => Except.ok ⟨c, probs.getD idx 0, probs, droctClasses⟩
    | none => Except.error "IndexError: list index out of range"

/-- `DROCTModel.load_model`.  `loadResult` is the outcome of
`tf.keras.models.load_model(self.model_path)`.  On failure the `except`
branch executes `self.model = self._create_dummy_model()`, but neither
`DROCTModel` nor `BaseModel` defines `_create_dummy_model`, so the handler
itself raises `AttributeError`, which propagates past `load_model`; the
adapter state (`model`, `is_loaded`) is the pair in the success value. -/
def droctLoadModel (loadResult : Except String KerasModel) :
    Except String (Option KerasModel × Bool) :=
  match loadResult with
  | Except.ok m => Except.ok (some m, true)
  | Except.error _ =>
      Except.error "AttributeError: DROCTModel object has no attribute _create_dummy_model"

/-! ## DR Fundus adapter (`DRFundusModel`, model_service.py lines 99-163) -/

/-- A loaded torch module as the adapter sees it: forward on a batch, returning
the (batch-size-1) output row, or `Except.error` when the module raises. -/
structure TorchModel where
  run : Batch → Except String (List ℚ)

def drFundusClasses : List String := ["No DR", "Early pathology", "Advanced pathology"]

/-- The documented default returned by the `except` branch of
`DRFundusModel.predict` (source lines 148-155). -/
def drFundusDefault : ClsResult :=
  ⟨"No DR", 0, [1, 0, 0], drFundusClasses⟩

/-- The body of the `try` block of `DRFundusModel.predict`: forward, softmax,
argmax, class lookup (`self.classes[predicted_class.item()]`, which raises
`IndexError` when the index is out of range), and margin confidence
`(sorted_probs[0][0] - sorted_probs[0][1]).item()` (which raises when the
output has fewer than two entries). -/
def drFundusTry (e : ℚ → ℚ) (m : TorchModel) (b : Batch) : Except String ClsResult :=
  (m.run b).bind fun outputs =>
    let probs := softmax e outputs
    let idx := argmax probs
    match drFundusClasses.get? idx with
    | none => Except.error "IndexError: list index out of range"
    | some pred =>
      let s := sortDesc probs
      match s.get? 0, s.get? 1 with
      | some s0, some s1 => Except.ok ⟨pred, s0 - s1, probs, drFundusClasses⟩
      | _, _ => Except.error "IndexError: tensor index out of range"

/-- `DRFundusModel.predict`: the `try` body with its `except` handler returning
the documented default. -/
def drFundusPredict (e : ℚ → ℚ) (m : TorchModel) (b : Batch) : ClsResult :=
  match drFundusTry e m b with
  | Except.ok r => r
  | Except.error _ => drFundusDefault

/-! ## AMD OCT adapter (`AMDOCTModel`, model_service.py lines 165-239) -/

/-- Result dict of `AMDOCTModel.predict`: `prediction`, `confidence`, and the
`class_probabilities` mapping built by `zip(self.classes, probabilities[0])`. -/
structure AMDOCTResult where
  prediction : String
  confidence : ℚ
  class_probabilities : List (String × ℚ)
deriving DecidableEq, Repr

def amdOctClasses : List String := ["Control", "Early", "Intermediate", "Late"]

/-- The documented default returned by the `except` branch of
`AMDOCTModel.predict` (source lines 221-230; its keys are the demo names, not
`self.classes`). -/
def amdOctDefault : AMDOCTResult :=
  ⟨"Normal", 85/100,
    [("Normal", 85/100), ("Early AMD", 1/10), ("Intermediate AMD", 3/100),
     ("Advanced AMD", 2/100)]⟩

/-- The body of the `try` block of `AMDOCTModel.predict`: forward, softmax,
argmax, `torch.max` for the confidence (raising on an empty tensor), and the
class lookup `self.classes[predicted_class.item()]`, which raises `IndexError`
when the index is out of range — all caught by the adapter's handler. -/
def amdOctTry (e : ℚ → ℚ) (m : TorchModel) (b : Batch) : Except String AMDOCTResult :=
  (m.run b).bind fun outputs =>
    match softmax e outputs with
    | [] => Except.error "RuntimeError: max on empty tensor"
    | p :: ps =>
      let probs := p :: ps
      let idx := argmax probs
      match amdOctClasses.get? idx with
      | none => Except.error "IndexError: list index out of range"
      | some pred => Except.ok ⟨pred, ps.foldl qmax p, List.zip amdOctClasses probs⟩

/-- `AMDOCTModel.predict`: the `try` body with its `except` handler returning
the documented default. -/
def amdOctPredict (e : ℚ → ℚ) (m : TorchModel) (b : Batch) : AMDOCTResult :=
  match amdOctTry e m b with
  | Except.ok r => r
  | Except.error _ => amdOctDefault

/-! ## AMD Fundus adapter (`AMDFundusModel`, model_service.py lines 241-390) -/

/-- A loaded torch module producing a `[N, C]` logits matrix (a 1-D output is
represented already unsqueezed to a column, mirroring
`if logits.ndim == 1: logits = logits.unsqueeze(1)`). -/
structure TorchModel2D where
  run : Batch → Except String (List (List ℚ))

/-- Result dict of `AMDFundusModel.predict`. -/
structure AMDFResult where
  prediction : String
  confidence : ℚ
  probability : ℚ
deriving DecidableEq, Repr

def amdFundusClasses : List String := ["No AMD", "AMD Present"]

/-- The documented default returned by the `except` branch of
`AMDFundusModel.predict` (source lines 375-381). -/
def amdFundusDefault : AMDFResult := ⟨"No AMD", 92/100, 8/100⟩

/-- The output-decoding part of the `try` block of `AMDFundusModel.predict`
(source lines 335-373).  `pred_idx.item()`/`probability.item()` require batch
size 1, so a logits matrix that is not a single row raises (caught by the
adapter's handler).  For a single logit, `prob_pos = sigmoid(logit)` and
`pred_idx = (prob_pos > 0.5)`; for two or more logits, softmax with
`probability = probs[:, 1]`.  Lines 358-367: class-name lookup falls back to
`str(idx)` and, for one or two logits, `confidence = prob if idx == 1 else 1 - prob`. -/
def amdFundusDecode (e : ℚ → ℚ) (logits : List (List ℚ)) : Except String AMDFResult :=
  match logits with
  | [row] =>
    match row with
    | [] => Except.error "RuntimeError: argmax on empty tensor"
    | [l] =>
      let p := sigmoid e l
      let idx : Nat := if 1/2 < p then 1 else 0
      let pred := if idx < amdFundusClasses.length then amdFundusClasses.getD idx "" else toString idx
      let conf := if idx = 1 then p else 1 - p
      Except.ok ⟨pred, conf, p⟩
    | _ =>
      let probs := softmax e row
      let idx := argmax probs
      let prob := probs.getD 1 0        -- probs[:, 1]: P("AMD Present") when binary
      let pred := if idx < amdFundusClasses.length then amdFundusClasses.getD idx "" else toString idx
      let conf := if row.length = 2 then (if idx = 1 then prob else 1 - prob) else prob
      Except.ok ⟨pred, conf, prob⟩
  | _ => Except.error "RuntimeError: item() on a tensor that is not one element"

/-- `AMDFundusModel.predict`: forward + decode inside `try`, with the `except`
handler returning the documented default. -/
def amdFundusPredict (e : ℚ → ℚ) (m : TorchModel2D) (b : Batch) : AMDFResult :=
  match (m.run b).bind (amdFundusDecode e) with
  | Except.ok r => r
  | Except.error _ => amdFundusDefault

/-! ## Glaucoma Fundus adapter (`GlaucomaFundusModel`, model_service.py lines 392-475) -/

structure GlaucomaResult where
  prediction : String
  confidence : ℚ
  class_probabilities : List (String × ℚ)
deriving DecidableEq, Repr

def glaucomaClasses : List String := ["Glaucoma Suspected", "No Glaucoma"]

/-- The documented default returned by the `except` branch of
`GlaucomaFundusModel.predict` (source lines 453-461). -/
def glaucomaDefault : GlaucomaResult :=
  ⟨"No Glaucoma", 88/100,
    [("No Glaucoma", 88/100), ("Glaucoma Suspected", 8/100), ("Glaucoma", 4/100)]⟩

/-- The body of the `try` block of `GlaucomaFundusModel.predict`: the source
asserts NHWC with exactly 3 channels (`raise ValueError(...)` otherwise — there
is no channel reconciliation in this adapter), runs the graph, applies softmax
only when the output does not already look like probabilities
(`probs.min() < 0 or probs.max() > 1.0 or not np.isclose(probs.sum(), 1.0,
atol=1e-3)`; `np.isclose` uses `atol + rtol·|b| = 1e-3 + 1e-5`), then argmax. -/
def glaucomaTry (e : ℚ → ℚ) (m : KerasModel) (b : Batch) : Except String GlaucomaResult :=
  if b.planes.length ≠ 3 then
    Except.error "ValueError: Expected NHWC with 3 channels"
  else
    match m.run b with
    | [] => Except.error "ValueError: zero-size array to reduction operation"
    | p :: ps =>
      let mn := ps.foldl qmin p
      let mx := ps.foldl qmax p
      let sum := (p :: ps).sum
      let probs0 := p :: ps
      let probs :=
        if mn < 0 ∨ 1 < mx ∨ ¬ qabs (sum - 1) ≤ 1/1000 + 1/100000 then softmax e probs0
        else probs0
      let idx := argmax probs
      match glaucomaClasses.get? idx with
      | some c => Except.ok ⟨c, probs.getD idx 0, List.zip glaucomaClasses probs⟩
      | none => Except.error "IndexError: list index out of range"

/-- `GlaucomaFundusModel.predict`: the `try` body with its `except` handler
returning the documented default. -/
def glaucomaPredict (e : ℚ → ℚ) (m : KerasModel) (b : Batch) : GlaucomaResult :=
  match glaucomaTry e m b with
  | Except.ok r => r
  | Except.error _ => glaucomaDefault

/-! ## Biomarker adapter (`BiomarkerModel`, model_service.py lines 477-607) -/

/-- One row of the static `BIOMARKER_CONFIG` table. -/
structure BiomarkerCfg where
  unit : String
  normal_range : String
  scale_factor : ℚ
deriving DecidableEq, Repr

/-- The static per-biomarker-name configuration table
(`BiomarkerModel.BIOMARKER_CONFIG`, source lines 481-511). -/
def BIOMARKER_CONFIG : List (String × BiomarkerCfg) :=
  [ ("Age", ⟨"years", "18-80", 1⟩),
    ("BMI", ⟨"kg/m^2", "18.5-24.9", 1⟩),
    ("BP_OUT_CALC_AVG_DIASTOLIC_BP", ⟨"mmHg", "60-80", 1⟩),
    ("BP_OUT_CALC_AVG_SYSTOLIC_BP", ⟨"mmHg", "90-120", 1⟩),
    ("Cholesterol Total", ⟨"mmol/L", "<5.2", 1⟩),
    ("HDL-Cholesterol", ⟨"mmol/L", ">1.0 (M), >1.3 (F)", 1⟩),
    ("LDL-Cholesterol Calc", ⟨"mmol/L", "<2.6", 1⟩),
    ("Triglyceride", ⟨"mmol/L", "<1.7", 1⟩),
    ("Glucose", ⟨"mmol/L", "3.9-5.6", 1⟩),
    ("HbA1C %", ⟨"%", "<5.7", 1⟩),
    ("Insulin", ⟨"mcunit/mL", "2.6-24.9", 1⟩),
    ("Hematocrit", ⟨"%", "36-46 (F), 41-50 (M)", 1⟩),
    ("Hemoglobin", ⟨"g/dL", "12-15.5 (F), 13.5-17.5 (M)", 1⟩),
    ("Red Blood Cell", ⟨"x10^6/µL", "4.0-5.2 (F), 4.7-6.1 (M)", 1⟩),
    ("Creatinine", ⟨"µmol/L", "53-115", 1⟩),
    ("Sex Hormone Binding Globulin", ⟨"nmol/L", "18-144", 1⟩),
    ("Estradiol", ⟨"pmol/L", "55-1285", 1⟩),
    ("Testosterone Total", ⟨"nmol/L", "10-35 (M), 0.5-2.4 (F)", 1⟩) ]

/-- Python's `round` to the nearest integer, ties to even (banker's rounding),
over `ℚ` as the exact idealisation of the float computation. -/
def roundHalfEven (q : ℚ) : ℤ :=
  if Int.fract q < 1/2 then ⌊q⌋
  else if 1/2 < Int.fract q then ⌊q⌋ + 1
  else if ⌊q⌋ % 2 = 0 then ⌊q⌋ else ⌊q⌋ + 1

/-- Python's `round(x, 2)`. -/
def round2 (q : ℚ) : ℚ := (roundHalfEven (q * 100) : ℚ) / 100

/-- Result dict of `BiomarkerModel.predict` (the impure `timestamp` field is
outside the embedding). -/
structure BioResult where
  biomarker_name : String
  predicted_value : ℚ
  unit : String
  normal_range : String
  confidence : ℚ
deriving DecidableEq, Repr

/-- Dummy biomarker values used by `_get_dummy_prediction`
(source lines 578-597). -/
def biomarkerDummyValues : List (String × ℚ) :=
  [ ("Age", 452/10), ("BMI", 235/10),
    ("BP_OUT_CALC_AVG_DIASTOLIC_BP", 72), ("BP_OUT_CALC_AVG_SYSTOLIC_BP", 118),
    ("Cholesterol Total", 185), ("Creatinine", 9/10), ("Estradiol", 150),
    ("Glucose", 95), ("HbA1C %", 52/10), ("HDL-Cholesterol", 55),
    ("Hematocrit", 42), ("Hemoglobin", 142/10), ("Insulin", 125/10),
    ("LDL-Cholesterol Calc", 95), ("Red Blood Cell", 48/10),
    ("Sex Hormone Binding Globulin", 45), ("Testosterone Total", 450),
    ("Triglyceride", 120) ]

/-- `BiomarkerModel._get_dummy_prediction` (returned by the `except` branch of
`predict`); `cfg` is `self.config = BIOMARKER_CONFIG.get(name, {})`. -/
def biomarkerDummy (name : String) (cfg : Option BiomarkerCfg) : BioResult :=
  { biomarker_name := name
    predicted_value := (biomarkerDummyValues.lookup name).getD 50
    unit := (cfg.map (·.unit)).getD ""
    normal_range := (cfg.map (·.normal_range)).getD "N/A"
    confidence := 85/100 }

/-- A loaded regression module: forward on a batch, returning the scalar
`output.item()`, or `Except.error` when the module raises. -/
structure TorchRegModel where
  run : Batch → Except String ℚ

/-- `BiomarkerModel.predict`: scale by `self.config.get('scale_factor', 1.0)`,
`round(·, 2)`, and take `unit` / `normal_range` from the config with the
source's `.get` defaults; the `except` handler returns the dummy prediction. -/
def biomarkerPredict (name : String) (m : TorchRegModel) (b : Batch) : BioResult :=
  let cfg := BIOMARKER_CONFIG.lookup name
  match m.run b with
  | Except.ok raw =>
      let scale := (cfg.map (·.scale_factor)).getD 1
      { biomarker_name := name
        predicted_value := round2 (raw * scale)
        unit := (cfg.map (·.unit)).getD ""
        normal_range := (cfg.map (·.normal_range)).getD "N/A"
        confidence := 85/100 }
  | Except.error _ => biomarkerDummy name cfg

/-! ## DICOM detection (`DicomProcessor.is_dicom_file`, dicom_utils.py lines 19-40) -/

/-- The 4-byte `DICM` marker. -/
def dicmMagic : List Nat := [68, 73, 67, 77]

/-- Whether the 4 bytes at offset 128 are exactly `DICM`.  `seek(128)` past the
end of a short buffer succeeds and the subsequent `read(4)` returns fewer than
4 bytes, which then compare unequal to `b"DICM"` — `take`/`drop` model this
exactly. -/
def hasDicmMagic (bs : List Nat) : Bool := (bs.drop 128).take 4 = dicmMagic

/-- `DicomProcessor.is_dicom_file` on a byte buffer.  For `bytes`/`bytearray`
input the `try` body (`BytesIO`, `seek`, `read`, compare) cannot raise, so the
`except` branch — the `pydicom.dcmread` fallback — is unreachable, and the
result is just the magic test. -/
def isDicomBytes (bs : List Nat) : Bool := hasDicmMagic bs

/-- `DicomProcessor.is_dicom_file` on a path.  `fs` is the file system (`none`
when `open(fp, "rb")` raises); `pyOk p` tells whether
`pydicom.dcmread(p, stop_before_pixels=True)` succeeds, which is consulted
only when opening the file raised.  The inner `try/except` around the fallback
returns `False` when the parse also raises, so the result is total. -/
def isDicomPath (fs : String → Option (List Nat)) (pyOk : String → Bool) (p : String) : Bool :=
  match fs p with
  | some bs => hasDicmMagic bs
  | none => pyOk p

/-! ## 8-bit normalisation (`DicomProcessor._normalize_to_8bit`, dicom_utils.py lines 248-264) -/

/-- All cells of a 2-D pixel grid, row-major. -/
def cells (g : List (List ℤ)) : List ℤ := g.foldr (· ++ ·) []

/-- `np.min(pixel_array)` (0 stands for the empty case, where `np.min` raises
and the source's `except` branch takes over). -/
def gridMin (g : List (List ℤ)) : ℤ :=
  match cells g with
  | [] => 0
  | c :: rest => rest.foldl min c

/-- `np.max(pixel_array)`. -/
def gridMax (g : List (List ℤ)) : ℤ :=
  match cells g with
  | [] => 0
  | c :: rest => rest.foldl max c

/-- `DicomProcessor._normalize_to_8bit`: if `max_val == min_val` return
`np.zeros_like(pixel_array, dtype=np.uint8)`; otherwise
`((pixel_array - min_val) / (max_val - min_val) * 255).astype(np.uint8)`
(the float quotient lies in `[0, 255]`, so the `uint8` cast truncates, i.e.
floors).  On an empty grid `np.min` raises and the `except` branch returns
`pixel_array.astype(np.uint8)` (`% 256` models the wrapping int cast). -/
def normalizeTo8bit (g : List (List ℤ)) : List (List ℤ) :=
  match cells g with
  | [] => g.map (·.map (fun x => x % 256))
  | c :: rest =>
    let mn := rest.foldl min c
    let mx := rest.foldl max c
    if mx = mn then g.map (·.map (fun _ => 0))
    else g.map (·.map (fun (x : ℤ) => ⌊(((x : ℚ) - (mn : ℚ)) / ((mx : ℚ) - (mn : ℚ)) * 255)⌋))

theorem foldl_min_le_init (l : List ℤ) (a : ℤ) : l.foldl min a ≤ a := by
  induction l generalizing a with
  | nil => simp
  | cons b l ih =>
    simp only [List.foldl_cons]
    exact le_trans (ih (min a b)) (min_le_left a b)

theorem foldl_min_le_mem (l : List ℤ) (a x : ℤ) (hx : x ∈ l) : l.foldl min a ≤ x := by
  induction l generalizing a with
  | nil => simp at hx
  | cons b l ih =>
    simp only [List.foldl_cons]
    rcases List.mem_cons.mp hx with rfl | hx'
    · exact le_trans (foldl_min_le_init l (min a x)) (min_le_right a x)
    · exact ih (min a b) hx'

theorem le_foldl_max_init (l : List ℤ) (a : ℤ) : a ≤ l.foldl max a := by
  induction l generalizing a with
  | nil => simp
  | cons b l ih =>
    simp only [List.foldl_cons]
    exact le_trans (le_max_left a b) (ih (max a b))

theorem le_foldl_max_mem (l : List ℤ) (a x : ℤ) (hx : x ∈ l) : x ≤ l.foldl max a := by
  induction l generalizing a with
  | nil => simp at hx
  | cons b l ih =>
    simp only [List.foldl_cons]
    rcases List.mem_cons.mp hx with rfl | hx'
    · exact le_trans (le_max_right a x) (le_foldl_max_init l (max a x))
    · exact ih (max a b) hx'

theorem foldl_min_const (l : List ℤ) (a : ℤ) (h : ∀ x ∈ l, x = a) : l.foldl min a = a := by
  induction l with
  | nil => rfl
  | cons b l ih =>
    have hb : b = a := h b (List.mem_cons_self b l)
    simp only [List.foldl_cons, hb, min_self]
    exact ih fun x hx => h x (List.mem_cons_of_mem b hx)

theorem foldl_max_const (l : List ℤ) (a : ℤ) (h : ∀ x ∈ l, x = a) : l.foldl max a = a := by
  induction l with
  | nil => rfl
  | cons b l ih =>
    have hb : b = a := h b (List.mem_cons_self b l)
    simp only [List.foldl_cons, hb, max_self]
    exact ih fun x hx => h x (List.mem_cons_of_mem b hx)

theorem gridMin_le_mem (g : List (List ℤ)) (x : ℤ) (hx : x ∈ cells g) : gridMin g ≤ x := by
  unfold gridMin
  match hc : cells g with
  | [] => rw [hc] at hx; simp at hx
  | c :: rest =>
    rw [hc] at hx
    rcases List.mem_cons.mp hx with rfl | hx'
    · exact foldl_min_le_init rest x
    · exact foldl_min_le_mem rest c x hx'

theorem le_gridMax_mem (g : List (List ℤ)) (x : ℤ) (hx : x ∈ cells g) : x ≤ gridMax g := by
  unfold gridMax
  match hc : cells g with
  | [] => rw [hc] at hx; simp at hx
  | c :: rest =>
    rw [hc] at hx
    rcases List.mem_cons.mp hx with rfl | hx'
    · exact le_foldl_max_init rest x
    · exact le_foldl_max_mem rest c x hx'

/-! ## MD5 (`hashlib.md5(...).hexdigest()`), used by
`DicomProcessor.anonymize_metadata`.  Standard MD5 over byte lists, with
32-bit words as `Nat` reduced mod `2^32`. -/

/-- Truncate to a 32-bit word. -/
def w32 (n : Nat) : Nat := n % 4294967296

/-- Bitwise complement of a 32-bit word. -/
def not32 (x : Nat) : Nat := 4294967295 - x

/-- 32-bit left rotation (for `x < 2^32`, the two parts occupy disjoint bit
ranges, so addition is bitwise or). -/
def rotl32 (x s : Nat) : Nat := w32 (x * 2 ^ s) + x / 2 ^ (32 - s)

/-- The 64 MD5 sine-derived constants. -/
def md5K : List Nat :=
  [ 0xd76aa478, 0xe8c7b756, 0x242070db, 0xc1bdceee,
    0xf57c0faf, 0x4787c62a, 0xa8304613, 0xfd469501,
    0x698098d8, 0x8b44f7af, 0xffff5bb1, 0x895cd7be,
    0x6b901122, 0xfd987193, 0xa679438e, 0x49b40821,
    0xf61e2562, 0xc040b340, 0x265e5a51, 0xe9b6c7aa,
    0xd62f105d, 0x02441453, 0xd8a1e681, 0xe7d3fbc8,
    0x21e1cde6, 0xc33707d6, 0xf4d50d87, 0x455a14ed,
    0xa9e3e905, 0xfcefa3f8, 0x676f02d9, 0x8d2a4c8a,
    0xfffa3942, 0x8771f681, 0x6d9d6122, 0xfde5380c,
    0xa4beea44, 0x4bdecfa9, 0xf6bb4b60, 0xbebfbc70,
    0x289b7ec6, 0xeaa127fa, 0xd4ef3085, 0x04881d05,
    0xd9d4d039, 0xe6db99e5, 0x1fa27cf8, 0xc4ac5665,
    0xf4292244, 0x432aff97, 0xab9423a7, 0xfc93a039,
    0x655b59c3, 0x8f0ccc92, 0xffeff47d, 0x85845dd1,
    0x6fa87e4f, 0xfe2ce6e0, 0xa3014314, 0x4e0811a1,
    0xf7537e82, 0xbd3af235, 0x2ad7d2bb, 0xeb86d391 ]

/-- The 64 per-round rotation amounts. -/
def md5S : List Nat :=
  [ 7, 12, 17, 22, 7, 12, 17, 22, 7, 12, 17, 22, 7, 12, 17, 22,
    5,  9, 14, 20, 5,  9, 14, 20, 5,  9, 14, 20, 5,  9, 14, 20,
    4, 11, 16, 23, 4, 11, 16, 23, 4, 11, 16, 23, 4, 11, 16, 23,
    6, 10, 15, 21, 6, 10, 15, 21, 6, 10, 15, 21, 6, 10, 15, 21 ]

/-- Round function of round `i`. -/
def md5F (i b c d : Nat) : Nat :=
  if i < 16 then (b &&& c) ||| (not32 b &&& d)
  else if i < 32 then (d &&& b) ||| (not32 d &&& c)
  else if i < 48 then b ^^^ c ^^^ d
  else c ^^^ (b ||| not32 d)

/-- Message-word index of round `i`. -/
def md5G (i : Nat) : Nat :=
  if i < 16 then i
  else if i < 32 then (5 * i + 1) % 16
  else if i < 48 then (3 * i + 5) % 16
  else (7 * i) % 16

/-- One MD5 operation on the state `(a, b, c, d)`. -/
def md5Round (ws : List Nat) (st : Nat × Nat × Nat × Nat) (i : Nat) : Nat × Nat × Nat × Nat :=
  match st with
  | (a, b, c, d) =>
    let tmp := w32 (a + md5F i b c d + md5K.getD i 0 + ws.getD (md5G i) 0)
    (d, w32 (b + rotl32 tmp (md5S.getD i 0)), b, c)

/-- One 16-word block: 64 operations, then add the previous state. -/
def md5Compress (ws : List Nat) (st : Nat × Nat × Nat × Nat) : Nat × Nat × Nat × Nat :=
  match (List.range 64).foldl (md5Round ws) st, st with
  | (a, b, c, d), (a0, b0, c0, d0) => (w32 (a + a0), w32 (b + b0), w32 (c + c0), w32 (d + d0))

/-- Fold the compression over `n` 16-word blocks. -/
def md5Blocks : Nat → List Nat → Nat × Nat × Nat × Nat → Nat × Nat × Nat × Nat
  | 0, _, st => st
  | n + 1, ws, st => md5Blocks n (ws.drop 16) (md5Compress (ws.take 16) st)

/-- `k` little-endian bytes of `n`. -/
def toLE : Nat → Nat → List Nat
  | 0, _ => []
  | k + 1, n => n % 256 :: toLE k (n / 256)

/-- Group bytes into 32-bit little-endian words (input length divisible by 4). -/
def bytesToWords : List Nat → List Nat
  | b0 :: b1 :: b2 :: b3 :: rest => (b0 + 256 * (b1 + 256 * (b2 + 256 * b3))) :: bytesToWords rest
  | _ => []

/-- MD5 padding: `0x80`, zeros to 56 mod 64, then the 64-bit little-endian bit
length. -/
def md5Pad (msg : List Nat) : List Nat :=
  msg ++ [128] ++ List.replicate ((119 - msg.length % 64) % 64) 0 ++ toLE 8 (8 * msg.length)

/-- The 16 digest bytes of a byte message. -/
def md5Digest (msg : List Nat) : List Nat :=
  let padded := md5Pad msg
  let st := md5Blocks (padded.length / 64) (bytesToWords padded)
    (0x67452301, 0xefcdab89, 0x98badcfe, 0x10325476)
  toLE 4 st.1 ++ toLE 4 st.2.1 ++ toLE 4 st.2.2.1 ++ toLE 4 st.2.2.2

/-- Lowercase hex rendering of one byte (`Nat.digitChar` maps 0-15 to the
lowercase hex digits, matching CPython's `hexdigest`). -/
def byteToHex (b : Nat) : List Char := [Nat.digitChar (b / 16), Nat.digitChar (b % 16)]

/-- `hashlib.md5(msg).hexdigest()`. -/
def md5Hexdigest (msg : List Nat) : String :=
  String.mk ((md5Digest msg).foldr (fun b acc => byteToHex b ++ acc) [])

/-- UTF-8 encoding of one code point (`str.encode()` per character). -/
def utf8EncodeCharNat (n : Nat) : List Nat :=
  if n < 128 then [n]
  else if n < 2048 then [192 + n / 64, 128 + n % 64]
  else if n < 65536 then [224 + n / 4096, 128 + n / 64 % 64, 128 + n % 64]
  else [240 + n / 262144, 128 + n / 4096 % 64, 128 + n / 64 % 64, 128 + n % 64]

/-- `s.encode()`: UTF-8 bytes of a string. -/
def utf8Bytes (s : String) : List Nat :=
  s.data.foldr (fun ch acc => utf8EncodeCharNat ch.toNat ++ acc) []

/-- `hashlib.md5(s.encode()).hexdigest()`. -/
def md5OfString (s : String) : String := md5Hexdigest (utf8Bytes s)

/-- MD5 test vector: the RFC 1321 digest of the empty message. -/
theorem md5_empty : md5OfString "" = "d41d8cd98f00b204e9800998ecf8427e" := by
  set_option maxRecDepth 8000 in decide

/-- MD5 test vector: the RFC 1321 digest of `"abc"`. -/
theorem md5_abc : md5OfString "abc" = "900150983cd24fb0d6963f7d28e17f72" := by
  set_option maxRecDepth 8000 in decide

/-! ## Metadata anonymisation (`DicomProcessor.anonymize_metadata`,
dicom_utils.py lines 206-223) -/

/-- A metadata record, as the key/value dict built by `extract_metadata`
(values after Python `str`).  Python's `dict.copy()` gives the returned record
value semantics independent of the input, which the pure function model
captures directly. -/
abbrev Metadata := String → Option String

/-- The anonymised patient id:
`'ANON_' + hashlib.md5(str(v).encode()).hexdigest()[:8]`. -/
def anonPatientId (v : String) : String :=
  "ANON_" ++ String.mk ((md5OfString v).data.take 8)

/-- `DicomProcessor.anonymize_metadata`: on a copy of the record, replace
`patient_name` (when present) by the sentinel `'ANONYMOUS'` and `patient_id`
(when present) by the truncated-MD5 tag; every other key is untouched. -/
def anonymizeMetadata (m : Metadata) : Metadata := fun k =>
  if k = "patient_name" then
    match m "patient_name" with
    | some _ => some "ANONYMOUS"
    | none => none
  else if k = "patient_id" then
    match m "patient_id" with
    | some v => some (anonPatientId v)
    | none => none
  else m k

/-! ## Claim C1 -/

/-- C1, counterexample.  The claim says every adapter's `predict` fails soft,
returning the family's documented default on any internal error including an
unexpected output tensor shape.  `DROCTModel.predict` has no `try/except` at
all: on a model whose (squeezed) output has shape `(3,)` it executes
`raise ValueError(f"Unexpected model output shape: ...")`, and the exception
propagates to the caller instead of any default result. -/
theorem droct_predict_propagates_shape_error :
    droctPredict expQ ⟨some 3, fun _ => [1, 2, 3]⟩ ⟨[[1]]⟩ =
      Except.error "ValueError: Unexpected model output shape" := rfl

/-- C1, amended: every adapter variant except DR OCT fails soft — when the
wrapped model raises during inference, `predict` returns that family's
documented default result instead of propagating: DR Fundus, AMD OCT,
AMD Fundus, Glaucoma and Biomarker in turn — while `DROCTModel.predict`
propagates internal errors (see the counterexample). -/
theorem predict_fails_soft_except_droct (e : ℚ → ℚ) :
    (∀ (m : TorchModel) (b : Batch) (err : String),
        m.run b = Except.error err → drFundusPredict e m b = drFundusDefault) ∧
    (∀ (m : TorchModel) (b : Batch) (err : String),
        m.run b = Except.error err → amdOctPredict e m b = amdOctDefault) ∧
    (∀ (m : TorchModel2D) (b : Batch) (err : String),
        m.run b = Except.error err → amdFundusPredict e m b = amdFundusDefault) ∧
    (∀ (m : KerasModel) (b : Batch) (err : String),
        glaucomaTry e m b = Except.error err → glaucomaPredict e m b = glaucomaDefault) ∧
    (∀ (name : String) (m : TorchRegModel) (b : Batch) (err : String),
        m.run b = Except.error err →
          biomarkerPredict name m b = biomarkerDummy name (BIOMARKER_CONFIG.lookup name)) := by
  refine ⟨?_, ?_, ?_, ?_, ?_⟩
  · intro m b err h
    simp [drFundusPredict, drFundusTry, h, Except.bind]
  · intro m b err h
    simp [amdOctPredict, amdOctTry, h, Except.bind]
  · intro m b err h
    simp [amdFundusPredict, h, Except.bind]
  · intro m b err h
    simp [glaucomaPredict, h]
  · intro name m b err h
    simp [biomarkerPredict, h]

/-- C1, witness for the amended theorem at a concrete erroring model
(exercising the DR Fundus and AMD OCT conjuncts). -/
theorem predict_fails_soft_witness :
    drFundusPredict expQ ⟨fun _ => Except.error "RuntimeError"⟩ ⟨[]⟩ = drFundusDefault ∧
    amdOctPredict expQ ⟨fun _ => Except.error "RuntimeError"⟩ ⟨[]⟩ = amdOctDefault :=
  ⟨(predict_fails_soft_except_droct expQ).1 ⟨fun _ => Except.error "RuntimeError"⟩ ⟨[]⟩
     "RuntimeError" rfl,
   (predict_fails_soft_except_droct expQ).2.1 ⟨fun _ => Except.error "RuntimeError"⟩ ⟨[]⟩
     "RuntimeError" rfl⟩

/-! ## Claim C2 -/

/-- C2: the claim says `load_model` never raises past the adapter boundary and
substitutes a fallback model on any load error.  For `DROCTModel` this is
false: when `tf.keras.models.load_model` raises, the `except` handler runs
`self.model = self._create_dummy_model()`, a method that neither `DROCTModel`
nor `BaseModel` defines (every other adapter defines its own), so the handler
itself raises `AttributeError` past `load_model`, leaving `model = None` and
`is_loaded = False`.  The code's own comment (`# Fallback to dummy model`)
documents the intended fallback, so the code, not the claim, is wrong. -/
theorem droct_load_raises_attribute_error (err : String) :
    droctLoadModel (Except.error err) =
      Except.error
        "AttributeError: DROCTModel object has no attribute _create_dummy_model" := rfl

/-! ## Claim C3 -/

/-- C3: the single-logit binary adapter (`AMDFundusModel.predict` on a `[1,1]`
logits tensor) computes `p = sigmoid(logit)`, predicts class index 1 exactly
when `p > 0.5`, reports `confidence = p` when the predicted class is positive
and `1 - p` otherwise, and both `p` and the confidence lie in `[0,1]`. -/
theorem amd_fundus_single_logit_contract (e : ℚ → ℚ) (he : ∀ x, 0 < e x)
    (m : TorchModel2D) (b : Batch) (l : ℚ) (h : m.run b = Except.ok [[l]]) :
    amdFundusPredict e m b =
      { prediction := amdFundusClasses.getD (if 1/2 < sigmoid e l then 1 else 0) ""
        confidence := if (if 1/2 < sigmoid e l then 1 else 0) = 1
                      then sigmoid e l else 1 - sigmoid e l
        probability := sigmoid e l } ∧
    0 ≤ sigmoid e l ∧ sigmoid e l ≤ 1 ∧
    0 ≤ (amdFundusPredict e m b).confidence ∧ (amdFundusPredict e m b).confidence ≤ 1 := by
  have hden : (0 : ℚ) < 1 + e (-l) := by
    have := he (-l)
    linarith
  have hp0 : 0 ≤ sigmoid e l := by
    unfold sigmoid
    positivity
  have hp1 : sigmoid e l ≤ 1 := by
    unfold sigmoid
    rw [div_le_one hden]
    have := he (-l)
    linarith
  have heq : amdFundusPredict e m b =
      { prediction := amdFundusClasses.getD (if 1/2 < sigmoid e l then 1 else 0) ""
        confidence := if (if 1/2 < sigmoid e l then 1 else 0) = 1
                      then sigmoid e l else 1 - sigmoid e l
        probability := sigmoid e l } := by
    by_cases hc : 1/2 < sigmoid e l <;>
      simp [amdFundusPredict, amdFundusDecode, h, hc, amdFundusClasses, Except.bind] <;>
      (intro hh; split_ifs at hh <;> omega)
  have hconf : (amdFundusPredict e m b).confidence =
      if (if 1/2 < sigmoid e l then 1 else 0) = 1 then sigmoid e l else 1 - sigmoid e l := by
    rw [heq]
  refine ⟨heq, hp0, hp1, ?_, ?_⟩ <;> rw [hconf] <;> split_ifs <;> linarith

/-- C3, witness at the logit 0 under the concrete exponential `expQ`
(there `sigmoid expQ 0 = 1/2`, so the predicted index is 0 and the
confidence is `1 - 1/2`). -/
theorem amd_fundus_single_logit_witness :
    amdFundusPredict expQ ⟨fun _ => Except.ok [[0]]⟩ ⟨[]⟩ =
      { prediction := amdFundusClasses.getD (if 1/2 < sigmoid expQ 0 then 1 else 0) ""
        confidence := if (if 1/2 < sigmoid expQ 0 then 1 else 0) = 1
                      then sigmoid expQ 0 else 1 - sigmoid expQ 0
        probability := sigmoid expQ 0 } ∧
    0 ≤ sigmoid expQ 0 ∧ sigmoid expQ 0 ≤ 1 ∧
    0 ≤ (amdFundusPredict expQ ⟨fun _ => Except.ok [[0]]⟩ ⟨[]⟩).confidence ∧
    (amdFundusPredict expQ ⟨fun _ => Except.ok [[0]]⟩ ⟨[]⟩).confidence ≤ 1 :=
  amd_fundus_single_logit_contract expQ expQ_pos ⟨fun _ => Except.ok [[0]]⟩ ⟨[]⟩ 0 rfl

/-! ## Claim C4 -/

/-- C4: for every biomarker name in the static configuration table, a
successful `BiomarkerModel.predict` returns the raw model output multiplied by
the configured scale factor and rounded to 2 decimal places, with the unit and
reference-range strings taken from the table row for that name. -/
theorem biomarker_predict_contract (name : String) (cfg : BiomarkerCfg)
    (hlook : BIOMARKER_CONFIG.lookup name = some cfg)
    (m : TorchRegModel) (b : Batch) (raw : ℚ) (hrun : m.run b = Except.ok raw) :
    biomarkerPredict name m b =
      { biomarker_name := name
        predicted_value := round2 (raw * cfg.scale_factor)
        unit := cfg.unit
        normal_range := cfg.normal_range
        confidence := 85/100 } := by
  simp [biomarkerPredict, hlook, hrun]

/-- C4, witness on the biomarker `"Age"` with raw model output `45.617`
(`round2` evaluates to `45.62`). -/
theorem biomarker_predict_witness :
    BIOMARKER_CONFIG.lookup "Age" = some ⟨"years", "18-80", 1⟩ ∧
    biomarkerPredict "Age" ⟨fun _ => Except.ok (45617/1000)⟩ ⟨[]⟩ =
      { biomarker_name := "Age"
        predicted_value := round2 ((45617/1000) * (1 : ℚ))
        unit := "years"
        normal_range := "18-80"
        confidence := 85/100 } :=
  ⟨by decide,
   biomarker_predict_contract "Age" ⟨"years", "18-80", 1⟩ (by decide)
     ⟨fun _ => Except.ok (45617/1000)⟩ ⟨[]⟩ (45617/1000) rfl⟩

/-! ## Claim C5 -/

/-- C5: the DR fundus adapter reports as confidence the gap between the
largest and second-largest softmax probabilities (`sorted[0] - sorted[1]` of
the descending sort, whose head bounds every probability and which is a sorted
permutation of the probability vector), while the predicted label is still the
argmax class. -/
theorem dr_fundus_margin_confidence (e : ℚ → ℚ) (m : TorchModel) (b : Batch)
    (outputs : List ℚ) (hrun : m.run b = Except.ok outputs) (h3 : outputs.length = 3) :
    drFundusPredict e m b =
      { prediction := drFundusClasses.getD (argmax (softmax e outputs)) ""
        confidence := (sortDesc (softmax e outputs)).getD 0 0 -
                      (sortDesc (softmax e outputs)).getD 1 0
        probabilities := softmax e outputs
        classes := drFundusClasses } ∧
    (∀ x ∈ softmax e outputs, x ≤ (sortDesc (softmax e outputs)).getD 0 0) ∧
    List.Sorted (fun x y => y ≤ x) (sortDesc (softmax e outputs)) ∧
    (sortDesc (softmax e outputs)).Perm (softmax e outputs) := by
  have hplen : (softmax e outputs).length = 3 := by rw [length_softmax]; exact h3
  have hpne : softmax e outputs ≠ [] := by
    intro hh; rw [hh] at hplen; simp at hplen
  have hidx : argmax (softmax e outputs) < 3 :=
    hplen ▸ argmax_lt_length (softmax e outputs) hpne
  have hslen : (sortDesc (softmax e outputs)).length = 3 := by
    rw [length_sortDesc]; exact hplen
  obtain ⟨s0, s1, s2, hs⟩ := List.length_eq_three.mp hslen
  have hget : drFundusClasses.get? (argmax (softmax e outputs)) =
      some (drFundusClasses.getD (argmax (softmax e outputs)) "") := by
    set n := argmax (softmax e outputs) with hn
    interval_cases n <;> rfl
  refine ⟨?_, fun x hx => le_head_sortDesc hx, sorted_sortDesc _, perm_sortDesc _⟩
  simp only [drFundusPredict, drFundusTry, hrun, Except.bind, hget, hs]
  simp

/-- C5, witness on the concrete output vector `[0, 1, 2]` under `expQ`. -/
theorem dr_fundus_margin_confidence_witness :
    drFundusPredict expQ ⟨fun _ => Except.ok [0, 1, 2]⟩ ⟨[]⟩ =
      { prediction := drFundusClasses.getD (argmax (softmax expQ [0, 1, 2])) ""
        confidence := (sortDesc (softmax expQ [0, 1, 2])).getD 0 0 -
                      (sortDesc (softmax expQ [0, 1, 2])).getD 1 0
        probabilities := softmax expQ [0, 1, 2]
        classes := drFundusClasses } ∧
    (∀ x ∈ softmax expQ [0, 1, 2], x ≤ (sortDesc (softmax expQ [0, 1, 2])).getD 0 0) ∧
    List.Sorted (fun x y => y ≤ x) (sortDesc (softmax expQ [0, 1, 2])) ∧
    (sortDesc (softmax expQ [0, 1, 2])).Perm (softmax expQ [0, 1, 2]) :=
  dr_fundus_margin_confidence expQ ⟨fun _ => Except.ok [0, 1, 2]⟩ ⟨[]⟩ [0, 1, 2] rfl rfl

/-! ## Claim C7 -/

/-- C7, counterexample.  The claim quantifies over every adapter whose model
expects 3-channel input, but only `DROCTModel.predict` reconciles channel
counts.  `GlaucomaFundusModel.predict` — whose model expects NHWC with three
channels — given a 1-channel batch does not replicate the channel: it raises
`ValueError` internally (`if x.ndim != 4 or x.shape[-1] != 3: raise ...`),
falls into its `except` handler, and returns the canned default, which differs
from the result the same model produces on the 3-channel replicated batch. -/
theorem glaucoma_does_not_reconcile_channels :
    glaucomaPredict expQ ⟨some 3, fun _ => [9/10, 1/10]⟩ ⟨[[1]]⟩ = glaucomaDefault ∧
    glaucomaPredict expQ ⟨some 3, fun _ => [9/10, 1/10]⟩ ⟨[[1], [1], [1]]⟩ ≠
      glaucomaPredict expQ ⟨some 3, fun _ => [9/10, 1/10]⟩ ⟨[[1]]⟩ := by
  have h1 : glaucomaPredict expQ ⟨some 3, fun _ => [9/10, 1/10]⟩ ⟨[[1]]⟩ = glaucomaDefault := rfl
  have h3 : glaucomaPredict expQ ⟨some 3, fun _ => [9/10, 1/10]⟩ ⟨[[1], [1], [1]]⟩ =
      ⟨"Glaucoma Suspected", 9/10, [("Glaucoma Suspected", 9/10), ("No Glaucoma", 1/10)]⟩ := by
    norm_num [glaucomaPredict, glaucomaTry, qmin, qmax, qabs, argmax, argmaxAux,
      glaucomaClasses, List.zip]
  rw [h1, h3]
  refine ⟨rfl, ?_⟩
  intro hcontra
  have := congrArg GlaucomaResult.prediction hcontra
  simp [glaucomaDefault] at this

/-- C7, amended: the DR OCT adapter (the one that inspects its model's
declared channel count) reconciles channel-count mismatches without error:
expecting 3 channels and given a 1-channel batch it replicates the plane
across three channels, and — for a model expecting 1 channel given a
3-channel batch — it averages the three planes into one; in both cases
`predict` behaves exactly as on the already-reconciled batch.  Other adapters
do not reconcile (see the counterexample). -/
theorem droct_reconciles_channels (e : ℚ → ℚ) (m : KerasModel)
    (h3 : m.expectedChannels = some 3) (p : List ℚ) :
    reconcileChannels m.expectedChannels ⟨[p]⟩ = ⟨[p, p, p]⟩ ∧
    droctPredict e m ⟨[p]⟩ = droctPredict e m ⟨[p, p, p]⟩ ∧
    (∀ m1 : KerasModel, m1.expectedChannels = some 1 → ∀ p1 p2 p3 : List ℚ,
      reconcileChannels m1.expectedChannels ⟨[p1, p2, p3]⟩ = ⟨[mean3 p1 p2 p3]⟩ ∧
      droctPredict e m1 ⟨[p1, p2, p3]⟩ = droctPredict e m1 ⟨[mean3 p1 p2 p3]⟩) := by
  refine ⟨?_, ?_, ?_⟩
  · simp [reconcileChannels, h3]
  · simp [droctPredict, reconcileChannels, h3]
  · intro m1 h1 p1 p2 p3
    constructor
    · simp [reconcileChannels, h1]
    · simp [droctPredict, reconcileChannels, h1]

/-- C7, witness for the amended theorem at a concrete model and plane. -/
theorem droct_reconciles_channels_witness :
    (⟨some 3, fun _ => [1]⟩ : KerasModel).expectedChannels = some 3 ∧
    (reconcileChannels (⟨some 3, fun _ => [1]⟩ : KerasModel).expectedChannels ⟨[[2]]⟩ =
        ⟨[[2], [2], [2]]⟩ ∧
      droctPredict expQ ⟨some 3, fun _ => [1]⟩ ⟨[[2]]⟩ =
        droctPredict expQ ⟨some 3, fun _ => [1]⟩ ⟨[[2], [2], [2]]⟩ ∧
      (∀ m1 : KerasModel, m1.expectedChannels = some 1 → ∀ p1 p2 p3 : List ℚ,
        reconcileChannels m1.expectedChannels ⟨[p1, p2, p3]⟩ = ⟨[mean3 p1 p2 p3]⟩ ∧
        droctPredict expQ m1 ⟨[p1, p2, p3]⟩ = droctPredict expQ m1 ⟨[mean3 p1 p2 p3]⟩)) :=
  ⟨rfl, droct_reconciles_channels expQ ⟨some 3, fun _ => [1]⟩ rfl ([2] : List ℚ)⟩

/-! ## Claim C8 -/

/-- C8: `is_dicom_file` returns true for any input whose 4 bytes at offset 128
are the `DICM` marker — the path's name (hence its extension) plays no role —
and for inputs without the marker the result agrees with whether the pydicom
header-only parse would succeed; it is total (never raises).  `pyBytesOk` /
`pyPathOk` model `pydicom.dcmread(..., stop_before_pixels=True)` succeeding;
the hypotheses record pydicom's documented behaviour: without `force=True` it
raises `InvalidDicomError` when the `DICM` prefix is missing (`hmagic`), it
and on a readable path it sees the file's bytes (`hlink`). -/
theorem is_dicom_file_contract (pyBytesOk : List Nat → Bool)
    (fs : String → Option (List Nat)) (pyPathOk : String → Bool)
    (hmagic : ∀ bs, pyBytesOk bs = true → hasDicmMagic bs = true)
    (hlink : ∀ p bs, fs p = some bs → pyPathOk p = pyBytesOk bs) :
    (∀ bs, hasDicmMagic bs = true → isDicomBytes bs = true) ∧
    (∀ bs, hasDicmMagic bs = false → isDicomBytes bs = pyBytesOk bs) ∧
    (∀ p bs, fs p = some bs → hasDicmMagic bs = true → isDicomPath fs pyPathOk p = true) ∧
    (∀ p bs, fs p = some bs → hasDicmMagic bs = false →
        isDicomPath fs pyPathOk p = pyPathOk p) ∧
    (∀ p, fs p = none → isDicomPath fs pyPathOk p = pyPathOk p) := by
  refine ⟨?_, ?_, ?_, ?_, ?_⟩
  · intro bs h
    exact h
  · intro bs h
    rw [isDicomBytes, h]
    cases hpy : pyBytesOk bs with
    | false => rfl
    | true => rw [hmagic bs hpy] at h; exact absurd h (by simp)
  · intro p bs hfs h
    simp [isDicomPath, hfs, h]
  · intro p bs hfs h
    have hl : pyPathOk p = pyBytesOk bs := hlink p bs hfs
    cases hpy : pyBytesOk bs with
    | false =>
      simp only [isDicomPath, hfs]
      rw [h, hl, hpy]
    | true => exact absurd (hmagic bs hpy) (by simp [h])
  · intro p hfs
    simp [isDicomPath, hfs]

/-- C8, witness: the contract instantiated at a pydicom model that accepts
exactly the marker-bearing buffers, over an empty file system. -/
theorem is_dicom_file_witness :
    (∀ bs, hasDicmMagic bs = true → isDicomBytes bs = true) ∧
    (∀ bs, hasDicmMagic bs = false → isDicomBytes bs = hasDicmMagic bs) ∧
    (∀ p bs, (fun _ => (none : Option (List Nat))) p = some bs → hasDicmMagic bs = true →
        isDicomPath (fun _ => none) (fun _ => false) p = true) ∧
    (∀ p bs, (fun _ => (none : Option (List Nat))) p = some bs → hasDicmMagic bs = false →
        isDicomPath (fun _ => none) (fun _ => false) p = (fun _ => false) p) ∧
    (∀ p, (fun _ => (none : Option (List Nat))) p = none →
        isDicomPath (fun _ => none) (fun _ => false) p = (fun _ => false) p) :=
  is_dicom_file_contract hasDicmMagic (fun _ => none) (fun _ => false)
    (fun _ h => h) (fun _ _ h => by simp at h)

/-! ## Claim C9 -/

/-- Membership in `cells` is membership in some row. -/
theorem mem_cells {g : List (List ℤ)} {x : ℤ} :
    x ∈ cells g ↔ ∃ r ∈ g, x ∈ r := by
  induction g with
  | nil => simp [cells]
  | cons r g ih =>
    simp only [cells, List.foldr_cons, List.mem_append, List.mem_cons]
    rw [show List.foldr (· ++ ·) [] g = cells g from rfl]
    constructor
    · rintro (hx | hx)
      · exact ⟨r, Or.inl rfl, hx⟩
      · obtain ⟨r', hr', hx'⟩ := ih.mp hx
        exact ⟨r', Or.inr hr', hx'⟩
    · rintro ⟨r', hr' | hr', hx'⟩
      · exact Or.inl (hr' ▸ hx')
      · exact Or.inr (ih.mpr ⟨r', hr', hx'⟩)

/-- C9: on a nonempty grid, 8-bit normalisation maps a constant grid to the
all-zero grid of the same shape (no division is attempted: the `max == min`
guard fires), and a non-constant grid to the elementwise linear rescale
`⌊(x - min) / (max - min) * 255⌋` by the observed minimum and maximum, every
output value lying in `[0, 255]`. -/
theorem normalize_to_8bit_contract (g : List (List ℤ)) (hne : cells g ≠ []) :
    ((∃ v, ∀ x ∈ cells g, x = v) → normalizeTo8bit g = g.map (·.map fun _ => (0 : ℤ))) ∧
    (gridMin g < gridMax g →
      normalizeTo8bit g =
        g.map (·.map fun (x : ℤ) =>
          ⌊(((x : ℚ) - (gridMin g : ℚ)) / ((gridMax g : ℚ) - (gridMin g : ℚ)) * 255)⌋) ∧
      ∀ row ∈ normalizeTo8bit g, ∀ v ∈ row, 0 ≤ v ∧ v ≤ 255) := by
  match hc : cells g with
  | [] => exact absurd hc hne
  | c :: rest =>
    constructor
    · rintro ⟨v, hv⟩
      have hcv : c = v := hv c (List.mem_cons_self c rest)
      have hrest : ∀ x ∈ rest, x = c := by
        intro x hx
        rw [hcv]
        exact hv x (List.mem_cons_of_mem c hx)
      have hmn : rest.foldl min c = c := foldl_min_const rest c hrest
      have hmx : rest.foldl max c = c := foldl_max_const rest c hrest
      simp only [normalizeTo8bit, hc, hmn, hmx]
      simp
    · intro hlt
      have hmn : gridMin g = rest.foldl min c := by rw [gridMin, hc]
      have hmx : gridMax g = rest.foldl max c := by rw [gridMax, hc]
      have hne' : rest.foldl max c ≠ rest.foldl min c := by
        rw [← hmn, ← hmx]
        omega
      have heq : normalizeTo8bit g =
          g.map (·.map fun (x : ℤ) =>
            ⌊(((x : ℚ) - (gridMin g : ℚ)) / ((gridMax g : ℚ) - (gridMin g : ℚ)) * 255)⌋) := by
        simp only [normalizeTo8bit, hc, if_neg hne', hmn, hmx]
      refine ⟨heq, ?_⟩
      intro row hrow v hvrow
      rw [heq] at hrow
      obtain ⟨row0, hrow0, rfl⟩ := List.mem_map.mp hrow
      obtain ⟨x, hx, rfl⟩ := List.mem_map.mp hvrow
      have hxc : x ∈ cells g := mem_cells.mpr ⟨row0, hrow0, hx⟩
      have hlo : gridMin g ≤ x := gridMin_le_mem g x hxc
      have hhi : x ≤ gridMax g := le_gridMax_mem g x hxc
      have hden : (0 : ℚ) < (gridMax g : ℚ) - (gridMin g : ℚ) := by
        have : (gridMin g : ℚ) < (gridMax g : ℚ) := by exact_mod_cast hlt
        linarith
      have hq0 : (0 : ℚ) ≤ ((x : ℚ) - (gridMin g : ℚ)) / ((gridMax g : ℚ) - (gridMin g : ℚ)) * 255 := by
        apply mul_nonneg _ (by norm_num)
        apply div_nonneg _ hden.le
        have : (gridMin g : ℚ) ≤ (x : ℚ) := by exact_mod_cast hlo
        linarith
      have hq1 : ((x : ℚ) - (gridMin g : ℚ)) / ((gridMax g : ℚ) - (gridMin g : ℚ)) * 255 ≤ 255 := by
        have hfrac : ((x : ℚ) - (gridMin g : ℚ)) / ((gridMax g : ℚ) - (gridMin g : ℚ)) ≤ 1 := by
          rw [div_le_one hden]
          have : (x : ℚ) ≤ (gridMax g : ℚ) := by exact_mod_cast hhi
          linarith
        nlinarith
      constructor
      · exact Int.le_floor.mpr (by exact_mod_cast hq0)
      · have : (⌊((x : ℚ) - (gridMin g : ℚ)) / ((gridMax g : ℚ) - (gridMin g : ℚ)) * 255⌋ : ℚ) ≤ 255 :=
          le_trans (Int.floor_le _) hq1
        exact_mod_cast this

/-- C9, witness on the concrete grids `[[4, 4], [4]]` (constant) and
`[[0, 5], [10]]` (non-constant), the hypotheses discharged by computation. -/
theorem normalize_to_8bit_witness :
    (cells [[(4 : ℤ), 4], [4]] ≠ [] ∧
      ((∃ v, ∀ x ∈ cells [[(4 : ℤ), 4], [4]], x = v) →
        normalizeTo8bit [[(4 : ℤ), 4], [4]] = [[(4 : ℤ), 4], [4]].map (·.map fun _ => (0 : ℤ)))) ∧
    (cells [[(0 : ℤ), 5], [10]] ≠ [] ∧
      (gridMin [[(0 : ℤ), 5], [10]] < gridMax [[(0 : ℤ), 5], [10]] →
        normalizeTo8bit [[(0 : ℤ), 5], [10]] =
          [[(0 : ℤ), 5], [10]].map (·.map fun (x : ℤ) =>
            ⌊(((x : ℚ) - (gridMin [[(0 : ℤ), 5], [10]] : ℚ)) /
              ((gridMax [[(0 : ℤ), 5], [10]] : ℚ) - (gridMin [[(0 : ℤ), 5], [10]] : ℚ)) * 255)⌋) ∧
        ∀ row ∈ normalizeTo8bit [[(0 : ℤ), 5], [10]], ∀ v ∈ row, 0 ≤ v ∧ v ≤ 255)) :=
  ⟨⟨by decide, (normalize_to_8bit_contract [[4, 4], [4]] (by decide)).1⟩,
   ⟨by decide, (normalize_to_8bit_contract [[0, 5], [10]] (by decide)).2⟩⟩

/-! ## Claim C6 -/

theorem length_toLE (k n : Nat) : (toLE k n).length = k := by
  induction k generalizing n with
  | zero => rfl
  | succ k ih => simp [toLE, ih]

theorem length_md5Digest (msg : List Nat) : (md5Digest msg).length = 16 := by
  simp [md5Digest, length_toLE]

theorem length_foldr_byteToHex (l : List Nat) :
    (l.foldr (fun b acc => byteToHex b ++ acc) []).length = 2 * l.length := by
  induction l with
  | nil => rfl
  | cons b l ih =>
    simp only [List.foldr_cons, List.length_append, List.length_cons, ih]
    have hb : (byteToHex b).length = 2 := rfl
    omega

theorem md5Hexdigest_data_length (msg : List Nat) : (md5Hexdigest msg).data.length = 32 := by
  show (List.foldr (fun b acc => byteToHex b ++ acc) [] (md5Digest msg)).length = 32
  rw [length_foldr_byteToHex, length_md5Digest]

/-- The anonymised id is always 13 characters: the 5-character sentinel prefix
plus 8 hex digits of the MD5 digest. -/
theorem anonPatientId_length (v : String) : (anonPatientId v).length = 13 := by
  have h32 : (md5OfString v).data.length = 32 := md5Hexdigest_data_length (utf8Bytes v)
  show ("ANON_" ++ String.mk ((md5OfString v).data.take 8)).length = 13
  rw [String.length_append]
  show 5 + ((md5OfString v).data.take 8).length = 13
  rw [List.length_take, h32]
  omega

/-- Any string of the form `"ANON_" ++ t` begins with the character `A`. -/
theorem head_anon_append (t : String) : ("ANON_" ++ t).data.head? = some 'A' := by
  obtain ⟨td⟩ := t
  rfl

/-- C6, counterexample.  The claim says the anonymised patient id always
differs from a non-empty input id.  The 13-byte id `"ANON_c92ddc91"` is a
fixed point of the anonymisation map: the first 8 hex digits of its MD5 digest
are exactly `c92ddc91`, so `anonymize_metadata` maps this non-empty patient id
to itself, leaking it unchanged. -/
theorem anonymize_fixed_point_id :
    (show Metadata from fun k => if k = "patient_id" then some "ANON_c92ddc91" else none)
        "patient_id" = some "ANON_c92ddc91" ∧
    "ANON_c92ddc91" ≠ "" ∧
    anonymizeMetadata (fun k => if k = "patient_id" then some "ANON_c92ddc91" else none)
        "patient_id" = some "ANON_c92ddc91" := by
  refine ⟨rfl, by decide, ?_⟩
  set_option maxRecDepth 8000 in decide

/-- C6, amended: for every metadata record whose patient id is non-empty and
is not itself of the sentinel-prefixed form `"ANON_" ++ _` (the proviso the
fixed-point counterexample forces), the anonymised patient id is the
deterministic 13-character truncated-MD5 tag `ANON_‹8 hex digits›`, differs
from the input id, and depends only on the input id (same id, same output, on
any record); the patient-name field is replaced by the fixed sentinel
`"ANONYMOUS"`. -/
theorem anonymize_patient_id_contract (m : Metadata) (v : String)
    (hv : m "patient_id" = some v) (_hne : v ≠ "")
    (hform : ∀ t, v ≠ "ANON_" ++ t) :
    anonymizeMetadata m "patient_id" = some (anonPatientId v) ∧
    anonymizeMetadata m "patient_id" ≠ some v ∧
    (∀ m' : Metadata, m' "patient_id" = some v →
      anonymizeMetadata m' "patient_id" = anonymizeMetadata m "patient_id") ∧
    (anonPatientId v).length = 13 ∧
    (∀ nm, m "patient_name" = some nm → anonymizeMetadata m "patient_name" = some "ANONYMOUS") := by
  have hid : anonymizeMetadata m "patient_id" = some (anonPatientId v) := by
    simp [anonymizeMetadata, hv]
  refine ⟨hid, ?_, ?_, anonPatientId_length v, ?_⟩
  · rw [hid]
    intro hcontra
    rw [Option.some_inj] at hcontra
    exact hform (String.mk ((md5OfString v).data.take 8)) hcontra.symm
  · intro m' hm'
    rw [hid]
    simp [anonymizeMetadata, hm']
  · intro nm hnm
    simp [anonymizeMetadata, hnm]

/-- C6, witness for the amended theorem on the patient id `"patient123"`. -/
theorem anonymize_patient_id_witness :
    (show Metadata from fun k => if k = "patient_id" then some "patient123" else none)
        "patient_id" = some "patient123" ∧
    "patient123" ≠ "" ∧
    (∀ t, "patient123" ≠ "ANON_" ++ t) ∧
    (anonymizeMetadata (fun k => if k = "patient_id" then some "patient123" else none)
        "patient_id" =
      some (anonPatientId "patient123") ∧
    anonymizeMetadata (fun k => if k = "patient_id" then some "patient123" else none)
        "patient_id" ≠ some "patient123" ∧
    (∀ m' : Metadata, m' "patient_id" = some "patient123" →
      anonymizeMetadata m' "patient_id" =
        anonymizeMetadata (fun k => if k = "patient_id" then some "patient123" else none)
          "patient_id") ∧
    (anonPatientId "patient123").length = 13 ∧
    (∀ nm, (show Metadata from fun k => if k = "patient_id" then some "patient123" else none)
        "patient_name" = some nm →
      anonymizeMetadata (fun k => if k = "patient_id" then some "patient123" else none)
        "patient_name" = some "ANONYMOUS")) :=
  have hform : ∀ t, "patient123" ≠ "ANON_" ++ t := fun t h => by
    have h2 := head_anon_append t
    rw [← h] at h2
    exact absurd h2 (by decide)
  ⟨rfl, by decide, hform,
   anonymize_patient_id_contract _ "patient123" rfl (by decide) hform⟩

/-! ## Claim C10 -/

/-- C10: `anonymize_metadata` maps every field other than `patient_name` and
`patient_id` to its original value; since it writes only into the
`metadata.copy()` it returns, the input record is untouched (captured here by
the value semantics of the embedding), so repeated anonymisation has no side
effect on the original. -/
theorem anonymize_frame (m : Metadata) (k : String)
    (h1 : k ≠ "patient_name") (h2 : k ≠ "patient_id") :
    anonymizeMetadata m k = m k := by
  simp [anonymizeMetadata, h1, h2]

/-- C10, witness at the field `"modality"`. -/
theorem anonymize_frame_witness :
    "modality" ≠ "patient_name" ∧ "modality" ≠ "patient_id" ∧
    anonymizeMetadata (fun _ => some "OCT") "modality" = (fun _ => some "OCT") "modality" :=
  ⟨by decide, by decide, anonymize_frame (fun _ => some "OCT") "modality" (by decide) (by decide)⟩

end MedicalAI
